import Mathlib

set_option autoImplicit false

/-!
Shallow embedding of the cachinator rate-limit and cache engines
(`src/lib/rateLimit.ts`, `src/lib/cache.ts`, `src/stores/memoryStore.ts`).
Timestamps and durations (milliseconds) are modelled as `ℤ`; token-bucket
token counts, rates and the quantities flowing through the middleware are
exact rationals `ℚ` (JavaScript numbers); hit counters are `ℕ`; response
bodies are opaque byte lists.  Definitions come first, then the theorems.
-/

namespace Cachinator

/-! ## Definitions -/

/-! ### Fixed-window counter store: `MemoryStore.increment` -/

/-- A per-key fixed-window counter record (`memoryStore.ts` `Counter`). -/
structure Counter where
  count : Nat
  expiresAt : ℤ
  deriving Repr, DecidableEq

/-- Result of `store.increment` (`{ totalHits, ttlMs }`). -/
structure IncrResult where
  totalHits : Nat
  ttlMs : ℤ
  deriving Repr, DecidableEq

/-- `MemoryStore.increment(key, windowMs)` for a single key, with the current
time `now` passed explicitly.  Mirrors `memoryStore.ts` lines 14–25: a missing
or expired record is replaced by a fresh one with `count = 1` and
`expiresAt = now + windowMs`; otherwise the count is incremented and the
remaining window time returned. -/
def increment (now windowMs : ℤ) : Option Counter → Counter × IncrResult
  | some r =>
    if r.expiresAt ≤ now then
      (⟨1, now + windowMs⟩, ⟨1, now + windowMs - now⟩)
    else
      (⟨r.count + 1, r.expiresAt⟩, ⟨r.count + 1, r.expiresAt - now⟩)
  | none => (⟨1, now + windowMs⟩, ⟨1, now + windowMs - now⟩)

/-- Run a sequence of `increment` calls at the given times, returning the
final store state and the list of per-call results. -/
def incrementRun (windowMs : ℤ) (st : Option Counter) :
    List ℤ → Option Counter × List IncrResult
  | [] => (st, [])
  | t :: ts =>
    let step := increment t windowMs st
    let rest := incrementRun windowMs (some step.1) ts
    (rest.1, step.2 :: rest.2)

/-! ### The rate-limit middleware decision (`rateLimit.ts` lines 34–70) -/

/-- The three strategies of `RateLimitOptions.strategy`. -/
inductive Strategy
  | fixed_window
  | sliding_window
  | token_bucket
  deriving Repr, DecidableEq

/-- The engine result consumed by the middleware:
`{ totalHits, ttlMs, remaining? }` (`rateLimit.ts` line 37). -/
structure RLResult where
  totalHits : ℚ
  ttlMs : ℚ
  remaining : Option ℚ
  deriving Repr, DecidableEq

/-- The rate-limit response metadata headers
(`X-RateLimit-Limit`, `X-RateLimit-Remaining`, `X-RateLimit-Reset`). -/
structure RLHeaders where
  limit : ℚ
  remaining : ℚ
  reset : ℤ
  deriving Repr, DecidableEq

/-- Outcome of one middleware invocation: a 429 block (with the `onBlocked`
hook's `totalHits`), a pass-through to `next()` (with the `onAllowed` hook's
`totalHits` and `remaining`), or an error forwarded to `next(error)` after
the `onError` hook fired with it (`rateLimit.ts` lines 56–69). -/
inductive RLOutcome (ε : Type)
  | blocked (totalHits : ℚ) (headers : RLHeaders)
  | allowed (totalHits remaining : ℚ) (headers : RLHeaders)
  | errored (e : ε)
  deriving Repr, DecidableEq

/-- Whether the outcome is a 429 block. -/
def RLOutcome.isBlocked {ε : Type} : RLOutcome ε → Bool
  | .blocked _ _ => true
  | _ => false

/-- Whether the outcome lets the request proceed to `next()`. -/
def RLOutcome.isAllowed {ε : Type} : RLOutcome ε → Bool
  | .allowed _ _ _ => true
  | _ => false

/-- The `X-RateLimit-Remaining` value reported on a non-error outcome
(0 on an error, where no headers are written). -/
def RLOutcome.reportedRemaining {ε : Type} : RLOutcome ε → ℚ
  | .blocked _ h => h.remaining
  | .allowed _ _ h => h.remaining
  | .errored _ => 0

/-- The `remaining` value passed to the `onAllowed` hook (0 elsewhere). -/
def RLOutcome.hookRemaining {ε : Type} : RLOutcome ε → ℚ
  | .allowed _ r _ => r
  | _ => 0

/-- The body of `rateLimitMiddleware` after the strategy dispatch
(`rateLimit.ts` lines 48–69): the engine result (or thrown store error) is
turned into headers and an allow/block/error outcome.  `remaining` defaults
to `max(0, requests - totalHits)` when the engine did not supply it; the
block comparison uses `burst ?? requests` as the limit for `token_bucket`
and `requests` otherwise; a thrown store error reaches the `catch` block:
the `onError` hook fires and the error goes to `next(error)`. -/
def middlewareStep {ε : Type} (requests : ℚ) (strategy : Strategy)
    (burst : Option ℚ) (engine : Except ε RLResult) : RLOutcome ε :=
  match engine with
  | .error e => .errored e
  | .ok result =>
    let remaining := result.remaining.getD (max 0 (requests - result.totalHits))
    let headers : RLHeaders := ⟨requests, remaining, ⌈result.ttlMs / 1000⌉⟩
    let limit := match strategy with
      | .token_bucket => burst.getD requests
      | _ => requests
    if limit < result.totalHits then .blocked result.totalHits headers
    else .allowed result.totalHits remaining headers

/-- Packaging of a bare `increment` result for the middleware: the
`fixed_window` branch (`rateLimit.ts` line 45) returns the store result,
which carries no `remaining` field. -/
def fixedWindowResult (r : IncrResult) : RLResult :=
  ⟨(r.totalHits : ℚ), (r.ttlMs : ℚ), none⟩

/-- The fixed-window fallback used by `handleTokenBucket` (line 88) and
`handleSlidingWindow` (line 129) when the store lacks the capability:
the `increment` result plus `remaining = max(0, requests - totalHits)`. -/
def fixedFallbackResult (requests : ℚ) (r : IncrResult) : RLResult :=
  ⟨(r.totalHits : ℚ), (r.ttlMs : ℚ), some (max 0 (requests - (r.totalHits : ℚ)))⟩

/-- The full fixed-window middleware decision for one request: `increment`
on the store state, then the allow/block comparison `totalHits > requests`. -/
def fixedWindowOutcome (requests : ℚ) (r : IncrResult) : RLOutcome Unit :=
  middlewareStep requests .fixed_window none (.ok (fixedWindowResult r))

/-- The token-bucket middleware decision on an engine result
(limit = `burst ?? requests`). -/
def tokenBucketOutcome (requests : ℚ) (burst : Option ℚ) (r : RLResult) :
    RLOutcome Unit :=
  middlewareStep requests .token_bucket burst (.ok r)

/-- The sliding-window middleware decision on an engine result. -/
def slidingWindowOutcome (requests : ℚ) (r : RLResult) : RLOutcome Unit :=
  middlewareStep requests .sliding_window none (.ok r)

/-! ### Token bucket: `handleTokenBucket` and the MemoryStore bucket -/

/-- The arguments the engine passes to `store.setTokens`
(`rateLimit.ts` lines 105 and 111). -/
structure BucketPersist where
  tokens : ℚ
  lastRefill : ℚ
  ttlMs : ℚ
  deriving Repr, DecidableEq

/-- `handleTokenBucket` (`rateLimit.ts` lines 73–118) on a store that has the
token-bucket capability.  `existing` is what `store.getTokens` returned
(`{tokens, lastRefill}` or absent).  Returns the persisted state and the
engine result.  Note line 99: the persisted `lastRefill` is the *existing*
record's `lastRefill`, not `now`. -/
def handleTokenBucket (requests window : ℚ) (burst refillRate : Option ℚ)
    (now : ℚ) (existing : Option (ℚ × ℚ)) : BucketPersist × RLResult :=
  let maxTokens := burst.getD requests
  let tokensPerSecond := refillRate.getD (requests / window)
  let refilled : ℚ × ℚ :=
    match existing with
    | some ex => (min maxTokens (ex.1 + (now - ex.2) / 1000 * tokensPerSecond), ex.2)
    | none => (maxTokens, now)
  if refilled.1 < 1 then
    (⟨refilled.1, refilled.2, window * 1000⟩,
     ⟨maxTokens + 1, (1 - refilled.1) / tokensPerSecond * 1000, some 0⟩)
  else
    (⟨refilled.1 - 1, refilled.2, window * 1000⟩,
     ⟨maxTokens - (refilled.1 - 1), window * 1000,
      some ((⌊refilled.1 - 1⌋ : ℤ) : ℚ)⟩)

/-- A stored bucket record (`memoryStore.ts` `tokenBuckets` entries). -/
structure BucketRecord where
  tokens : ℚ
  lastRefill : ℚ
  expiresAt : ℚ
  deriving Repr, DecidableEq

/-- `MemoryStore.getTokens` (lines 67–75): absent or expired records read as
`undefined`. -/
def getTokens (now : ℚ) : Option BucketRecord → Option (ℚ × ℚ)
  | some b => if b.expiresAt ≤ now then none else some (b.tokens, b.lastRefill)
  | none => none

/-- One token-bucket request against the in-process store: `getTokens`, the
engine step, then `setTokens` persisting with `expiresAt = now + ttlMs`
(`memoryStore.ts` lines 77–83). -/
def tokenBucketStep (requests window : ℚ) (burst refillRate : Option ℚ)
    (now : ℚ) (st : Option BucketRecord) : Option BucketRecord × RLResult :=
  let hr := handleTokenBucket requests window burst refillRate now (getTokens now st)
  (some ⟨hr.1.tokens, hr.1.lastRefill, now + hr.1.ttlMs⟩, hr.2)

/-- Run a sequence of token-bucket requests at the given times. -/
def tokenBucketRun (requests window : ℚ) (burst refillRate : Option ℚ)
    (st : Option BucketRecord) : List ℚ → Option BucketRecord × List RLResult
  | [] => (st, [])
  | t :: ts =>
    let step := tokenBucketStep requests window burst refillRate t st
    let rest := tokenBucketRun requests window burst refillRate step.1 ts
    (rest.1, step.2 :: rest.2)

/-! ### Sliding window: `MemoryStore.addToWindow` and `handleSlidingWindow` -/

/-- A stored sliding-window record (`memoryStore.ts` `slidingWindows`
entries).  `expiresAt` is set when the record is created and never
refreshed afterwards. -/
structure WindowState where
  timestamps : List ℤ
  expiresAt : ℤ
  deriving Repr, DecidableEq

/-- `Math.min(...)` over a nonempty list, head and tail. -/
def listMin : ℤ → List ℤ → ℤ
  | x, [] => x
  | x, y :: ys => min x (listMin y ys)

/-- `MemoryStore.addToWindow(key, timestamp, windowMs)` (lines 86–106) with
the store's own `Date.now()` passed as `now`: a missing or expired record is
replaced by `{timestamps: [], expiresAt: now + windowMs}`; timestamps at or
below `now - windowMs` are filtered out; the new timestamp is pushed; the
resulting count and `Math.min` of the timestamps are returned. -/
def addToWindow (now timestamp windowMs : ℤ) (st : Option WindowState) :
    WindowState × Nat × ℤ :=
  let w : WindowState :=
    match st with
    | some w => if w.expiresAt ≤ now then ⟨[], now + windowMs⟩ else w
    | none => ⟨[], now + windowMs⟩
  let kept := w.timestamps.filter (fun ts => decide (now - windowMs < ts))
  let ts2 := kept ++ [timestamp]
  (⟨ts2, w.expiresAt⟩, ts2.length,
   match ts2 with
   | [] => timestamp
   | x :: xs => listMin x xs)

/-- `handleSlidingWindow` (`rateLimit.ts` lines 120–141) on a store with the
capability: add the current time to the window, then block iff
`count > requests`, reporting `max(0, oldest + windowMs - now)` when blocked
and `windowMs` when allowed. -/
def handleSlidingWindow (requests : ℚ) (windowMs now : ℤ)
    (st : Option WindowState) : WindowState × RLResult :=
  let r := addToWindow now now windowMs st
  let count := r.2.1
  let oldest := r.2.2
  if (requests : ℚ) < (count : ℚ) then
    (r.1, ⟨(count : ℚ), ((max 0 (oldest + windowMs - now) : ℤ) : ℚ), some 0⟩)
  else
    (r.1, ⟨(count : ℚ), ((windowMs : ℤ) : ℚ), some (max 0 (requests - (count : ℚ)))⟩)

/-- Run a sequence of sliding-window requests at the given times. -/
def slidingRun (requests : ℚ) (windowMs : ℤ) (st : Option WindowState) :
    List ℤ → Option WindowState × List RLResult
  | [] => (st, [])
  | t :: ts =>
    let step := handleSlidingWindow requests windowMs t st
    let rest := slidingRun requests windowMs (some step.1) ts
    (rest.1, step.2 :: rest.2)

/-- Consecutive elements are more than `gap` apart. -/
def spacedBy (gap : ℤ) : List ℤ → Bool
  | [] => true
  | [_] => true
  | a :: b :: rest => decide (a + gap < b) && spacedBy gap (b :: rest)

/-! ### Compression decision and the cache middleware -/

/-- The `compression` option of the cache middleware. -/
inductive CompressionMode
  | off
  | br
  | gzip
  | auto
  deriving Repr, DecidableEq, Fintype

/-- A compression codec (`'br' | 'gzip'`). -/
inductive Algo
  | br
  | gzip
  deriving Repr, DecidableEq, Fintype

/-- `pickAlgo` from the miss path of the cache middleware
(`cache.ts`, the `res.send` wrapper): `largeEnough` is
`raw.length >= minSizeBytes`, the two accept flags come from the
`Accept-Encoding` header, `overloaded` from the CPU probe. -/
def pickAlgo (compression : CompressionMode)
    (largeEnough clientAcceptsBr clientAcceptsGzip overloaded : Bool) :
    Option Algo :=
  if compression = .off then none
  else if !largeEnough then none
  else if compression = .br then
    (if clientAcceptsBr then some .br
     else if clientAcceptsGzip then some .gzip
     else none)
  else if compression = .gzip then
    (if clientAcceptsGzip then some .gzip else none)
  else
    if !clientAcceptsBr && clientAcceptsGzip then some .gzip
    else if clientAcceptsBr && largeEnough && !overloaded then some .br
    else if clientAcceptsGzip then some .gzip
    else if clientAcceptsBr then some .br
    else none

/-- The compression choice as the specification words it (§4.3 rule 4):
no compression when the mode is off or the payload is below the threshold;
mode br prefers br, then gzip, then none; mode gzip uses gzip or none;
mode auto prefers gzip when the client accepts gzip but not br, else br when
accepted and the CPU probe reports false, else gzip if accepted, else br if
accepted, else none. -/
def pickAlgoSpec (compression : CompressionMode)
    (largeEnough clientAcceptsBr clientAcceptsGzip overloaded : Bool) :
    Option Algo :=
  if compression = .off ∨ largeEnough = false then none
  else
    match compression with
    | .off => none
    | .br =>
      if clientAcceptsBr then some .br
      else if clientAcceptsGzip then some .gzip
      else none
    | .gzip => if clientAcceptsGzip then some .gzip else none
    | .auto =>
      if clientAcceptsGzip ∧ clientAcceptsBr = false then some .gzip
      else if clientAcceptsBr ∧ overloaded = false then some .br
      else if clientAcceptsGzip then some .gzip
      else if clientAcceptsBr then some .br
      else none

/-- A stored cache entry for one key (`memoryStore.ts` `cache` entries). -/
structure CacheEntryRec where
  body : List Nat
  statusCode : Option Nat
  contentType : Option String
  contentEncoding : Option Algo
  expiresAt : ℤ
  deriving Repr, DecidableEq

/-- What cache reads return to the middleware (no `expiresAt`). -/
structure CacheView where
  body : List Nat
  statusCode : Option Nat
  contentType : Option String
  contentEncoding : Option Algo
  deriving Repr, DecidableEq

/-- Forget the expiry of a stored entry. -/
def entryView (e : CacheEntryRec) : CacheView :=
  ⟨e.body, e.statusCode, e.contentType, e.contentEncoding⟩

/-- `MemoryStore.get` (lines 27–36): an expired entry is deleted and read as
absent.  Returns the store state after the call and the view. -/
def memCacheGet (now : ℤ) (st : Option CacheEntryRec) :
    Option CacheEntryRec × Option CacheView :=
  match st with
  | none => (none, none)
  | some e =>
    if e.expiresAt ≤ now then (none, none) else (some e, some (entryView e))

/-- `MemoryStore.getWithTTL` (lines 38–47): returns the entry whether or not
it has expired, with `ttlMs = expiresAt - now` (possibly ≤ 0). -/
def memCacheGetWithTTL (now : ℤ) (st : Option CacheEntryRec) :
    Option (CacheView × ℤ) :=
  match st with
  | none => none
  | some e => some (entryView e, e.expiresAt - now)

/-- The downstream handler's response on a miss: raw body bytes, the final
status code, and the `Content-Type` header it set (if any). -/
structure HandlerOut where
  body : List Nat
  statusCode : Nat
  contentType : Option String
  deriving Repr, DecidableEq

/-- The externally observable response of one cache-middleware request:
the `X-Cache` hit marker, status, body bytes, `Content-Type` and
`Content-Encoding`. -/
structure CacheResponse where
  hit : Bool
  statusCode : Nat
  body : List Nat
  contentType : Option String
  contentEncoding : Option Algo
  deriving Repr, DecidableEq

/-- Cache middleware configuration relevant to a single GET request:
`ttlMs = ttl * 1000`, compression mode, `minSizeBytes`, and whether the
store provides `getWithTTL`.  (The modelled configurations have SWR
disabled, so no revalidation callback fires.) -/
structure CacheConfig where
  ttlMs : ℤ
  compression : CompressionMode
  minSizeBytes : Nat
  useGetWithTTL : Bool
  deriving Repr, DecidableEq

/-- One cacheable GET request through `cacheMiddleware` (the compression/SWR
version, lines 48–175) against the in-process store, for a single key:
lookup via `getWithTTL` when available with `get` as fallback; on a hit the
stored status/body/content-type/content-encoding are replayed with
`X-Cache: HIT` and the handler is not invoked; on a miss the handler runs,
the `res.send` wrapper compresses per `pickAlgo`, stores the payload with
`expiresAt = now + ttlMs`, and sends with `X-Cache: MISS`.  Returns
(response, store state after, whether the handler was invoked). -/
def cacheRequest (cfg : CacheConfig) (compressFn : Algo → List Nat → List Nat)
    (clientAcceptsBr clientAcceptsGzip overloaded : Bool)
    (handler : HandlerOut) (now : ℤ) (st : Option CacheEntryRec) :
    CacheResponse × Option CacheEntryRec × Bool :=
  let viaTtl := if cfg.useGetWithTTL then memCacheGetWithTTL now st else none
  match viaTtl with
  | some (v, _ttl) =>
    (⟨true, v.statusCode.getD 200, v.body,
      some (v.contentType.getD "application/json"), v.contentEncoding⟩,
     st, false)
  | none =>
    let got := memCacheGet now st
    match got.2 with
    | some v =>
      (⟨true, v.statusCode.getD 200, v.body,
        some (v.contentType.getD "application/json"), v.contentEncoding⟩,
       got.1, false)
    | none =>
      let raw := handler.body
      let ct := handler.contentType.getD "application/json"
      let largeEnough := decide (cfg.minSizeBytes ≤ raw.length)
      let algo := pickAlgo cfg.compression largeEnough clientAcceptsBr
        clientAcceptsGzip overloaded
      let payload := match algo with
        | some a => compressFn a raw
        | none => raw
      let entry : CacheEntryRec :=
        ⟨payload, some handler.statusCode, some ct, algo, now + cfg.ttlMs⟩
      (⟨false, handler.statusCode, (if algo.isSome then payload else raw),
        handler.contentType, algo⟩,
       some entry, true)

/-! ## Theorems -/

/-! ### Fixed-window lemmas -/

theorem incrementRun_nil (windowMs : ℤ) (st : Option Counter) :
    incrementRun windowMs st [] = (st, []) := rfl

theorem incrementRun_cons (windowMs : ℤ) (st : Option Counter) (t : ℤ)
    (ts : List ℤ) :
    incrementRun windowMs st (t :: ts)
      = ((incrementRun windowMs (some (increment t windowMs st).1) ts).1,
         (increment t windowMs st).2
           :: (incrementRun windowMs (some (increment t windowMs st).1) ts).2) :=
  rfl

/-- On a live record (no time in the list has reached `expiresAt`), a run of
`increment` calls just counts up from the stored count, never resetting. -/
theorem incrementRun_hits_live (windowMs e : ℤ) (ts : List ℤ)
    (h : ∀ t ∈ ts, t < e) (c : Nat) :
    (incrementRun windowMs (some ⟨c, e⟩) ts).2.map IncrResult.totalHits
      = List.range' (c + 1) ts.length 1 := by
  induction ts generalizing c with
  | nil => simp [incrementRun]
  | cons t ts ih =>
    have ht : t < e := h t (List.mem_cons_self t ts)
    have hts : ∀ u ∈ ts, u < e := fun u hu => h u (List.mem_cons_of_mem t hu)
    rw [incrementRun_cons]
    simp only [increment, if_neg (by omega : ¬ e ≤ t), List.map_cons,
      ih hts (c + 1), List.length_cons, List.range'_succ]

/-- The store state left behind by a live (reset-free) run. -/
theorem incrementRun_state_live (windowMs e : ℤ) (ts : List ℤ)
    (h : ∀ t ∈ ts, t < e) (c : Nat) :
    (incrementRun windowMs (some ⟨c, e⟩) ts).1 = some ⟨c + ts.length, e⟩ := by
  induction ts generalizing c with
  | nil => simp [incrementRun]
  | cons t ts ih =>
    have ht : t < e := h t (List.mem_cons_self t ts)
    have hts : ∀ u ∈ ts, u < e := fun u hu => h u (List.mem_cons_of_mem t hu)
    rw [incrementRun_cons]
    simp only [increment, if_neg (by omega : ¬ e ≤ t), ih hts (c + 1),
      List.length_cons]
    have hc : c + 1 + ts.length = c + (ts.length + 1) := by omega
    rw [hc]

/-- The middleware blocks a fixed-window request exactly when the hit count
returned by `increment` exceeds the configured quota. -/
theorem fixedWindowOutcome_isBlocked (requests : Nat) (r : IncrResult) :
    (fixedWindowOutcome (requests : ℚ) r).isBlocked
      = decide (requests < r.totalHits) := by
  by_cases h : requests < r.totalHits
  · have : ((requests : ℕ) : ℚ) < ((r.totalHits : ℕ) : ℚ) := by exact_mod_cast h
    simp [fixedWindowOutcome, middlewareStep, fixedWindowResult,
      RLOutcome.isBlocked, this, h]
  · have : ¬ ((requests : ℕ) : ℚ) < ((r.totalHits : ℕ) : ℚ) := by
      exact_mod_cast h
    simp [fixedWindowOutcome, middlewareStep, fixedWindowResult,
      RLOutcome.isBlocked, this, h]

/-- Elements of `List.range' 1 n 1` mapped through the quota check
`totalHits > N` give `N` allowed decisions followed by one block. -/
theorem range'_quota_map (N : Nat) :
    (List.range' 1 (N + 1) 1).map (fun h => decide (N < h))
      = List.replicate N false ++ [true] := by
  have hsplit : List.range' 1 (N + 1) 1 = List.range' 1 N 1 ++ [1 + 1 * N] :=
    List.range'_concat 1 N
  rw [hsplit, List.map_append]
  have hlast : decide (N < 1 + 1 * N) = true := by simp
  have htail : (List.range' 1 N 1).map (fun h => decide (N < h))
      = List.replicate N false := by
    rw [List.eq_replicate_iff]
    refine ⟨by simp, fun b hb => ?_⟩
    rcases List.mem_map.mp hb with ⟨h, hh, rfl⟩
    have := List.mem_range'_1.mp hh
    simp only [decide_eq_false_iff_not]
    omega
  simp [htail, hlast]

/-- **C1**: for every key and fixed-window limiter of quota `N`, any `N + 1`
requests falling inside one window (all strictly before the window created by
the first request expires) produce hit counts `1, 2, …, N + 1`, so each of
the first `N` is allowed and the `(N+1)`-th is blocked — a request is blocked
iff the `totalHits` returned by `increment` exceeds `N`
(`fixedWindowOutcome`); a request after the window has elapsed sees a fresh
counter (`totalHits = 1` with a fresh window), resetting the pattern. -/
theorem fixed_window_quota_exhaustion (N : Nat) (W t₀ t' : ℤ) (rest : List ℤ)
    (hlen : rest.length = N)
    (hin : ∀ t ∈ rest, t₀ ≤ t ∧ t < t₀ + W)
    (hafter : t₀ + W ≤ t') :
    ((incrementRun W none (t₀ :: rest)).2.map
        (fun r => (fixedWindowOutcome (N : ℚ) r).isBlocked))
      = List.replicate N false ++ [true]
    ∧ ((incrementRun W none (t₀ :: rest)).2.map IncrResult.totalHits
        = List.range' 1 (N + 1) 1)
    ∧ (increment t' W (incrementRun W none (t₀ :: rest)).1).2.totalHits = 1
    ∧ (increment t' W (incrementRun W none (t₀ :: rest)).1).1 = ⟨1, t' + W⟩ := by
  have hW : ∀ t ∈ rest, t < t₀ + W := fun t ht => (hin t ht).2
  have hfirst : increment t₀ W none = (⟨1, t₀ + W⟩, ⟨1, t₀ + W - t₀⟩) := rfl
  have hhits : (incrementRun W none (t₀ :: rest)).2.map IncrResult.totalHits
      = List.range' 1 (N + 1) 1 := by
    rw [incrementRun_cons, hfirst, List.map_cons,
      incrementRun_hits_live W (t₀ + W) rest hW 1, hlen, List.range'_succ]
  have hstate : (incrementRun W none (t₀ :: rest)).1 = some ⟨1 + N, t₀ + W⟩ := by
    rw [incrementRun_cons, hfirst,
      incrementRun_state_live W (t₀ + W) rest hW 1, hlen]
  refine ⟨?_, hhits, ?_, ?_⟩
  · have hmaps : (incrementRun W none (t₀ :: rest)).2.map
        (fun r => (fixedWindowOutcome (N : ℚ) r).isBlocked)
        = ((incrementRun W none (t₀ :: rest)).2.map IncrResult.totalHits).map
            (fun h => decide (N < h)) := by
      rw [List.map_map]
      exact List.map_congr_left fun r _ => fixedWindowOutcome_isBlocked N r
    rw [hmaps, hhits, range'_quota_map]
  · rw [hstate]
    simp [increment, if_pos hafter]
  · rw [hstate]
    simp [increment, if_pos hafter]

/-- Witness for `fixed_window_quota_exhaustion`: quota 2, window 1000 ms,
requests at 0, 1, 2 ms and a fourth at 1000 ms. -/
theorem fixed_window_quota_exhaustion_witness :
    ((incrementRun 1000 none [0, 1, 2]).2.map
        (fun r => (fixedWindowOutcome ((2 : Nat) : ℚ) r).isBlocked))
      = List.replicate 2 false ++ [true]
    ∧ ((incrementRun 1000 none [0, 1, 2]).2.map IncrResult.totalHits
        = List.range' 1 (2 + 1) 1)
    ∧ (increment 1000 1000 (incrementRun 1000 none [0, 1, 2]).1).2.totalHits = 1
    ∧ (increment 1000 1000 (incrementRun 1000 none [0, 1, 2]).1).1
        = ⟨1, 1000 + 1000⟩ :=
  fixed_window_quota_exhaustion 2 1000 0 1000 [1, 2] rfl (by decide) (by decide)

/-! ### Token-bucket lemmas and claims -/

theorem tokenBucketOutcome_isBlocked (requests : ℚ) (burst : Option ℚ)
    (r : RLResult) :
    (tokenBucketOutcome requests burst r).isBlocked
      = decide (burst.getD requests < r.totalHits) := by
  by_cases h : burst.getD requests < r.totalHits <;>
    simp [tokenBucketOutcome, middlewareStep, RLOutcome.isBlocked, h]

theorem tokenBucketOutcome_isAllowed (requests : ℚ) (burst : Option ℚ)
    (r : RLResult) :
    (tokenBucketOutcome requests burst r).isAllowed
      = !decide (burst.getD requests < r.totalHits) := by
  by_cases h : burst.getD requests < r.totalHits <;>
    simp [tokenBucketOutcome, middlewareStep, RLOutcome.isAllowed, h]

/-- **C3**: one `token_bucket` request against a capable store with existing
bucket state `{tokens = tok, lastRefill = lr}`: the engine refills to
`refilled = min(burst, tok + (now - lr)/1000 * refillRate)`; when
`refilled < 1` it consumes nothing (persisting `refilled` with the old
`lastRefill`), reports `remaining = 0` and
`ttlMs = (1 - refilled)/refillRate * 1000`, and the middleware blocks; when
`refilled ≥ 1` it consumes exactly one token (persisting `refilled - 1`),
reports reset `ttlMs = window * 1000` and `remaining = ⌊refilled - 1⌋`, and
the middleware allows. -/
theorem token_bucket_refill_consume (requests window : ℚ)
    (burst refillRate : Option ℚ) (now tok lr : ℚ) :
    (let maxTokens := burst.getD requests
     let tps := refillRate.getD (requests / window)
     let refilled := min maxTokens (tok + (now - lr) / 1000 * tps)
     let hr := handleTokenBucket requests window burst refillRate now
       (some (tok, lr))
     hr.1.tokens = (if refilled < 1 then refilled else refilled - 1)
     ∧ hr.1.lastRefill = lr
     ∧ hr.1.ttlMs = window * 1000
     ∧ hr.2.totalHits
         = (if refilled < 1 then maxTokens + 1 else maxTokens - (refilled - 1))
     ∧ hr.2.ttlMs
         = (if refilled < 1 then (1 - refilled) / tps * 1000 else window * 1000)
     ∧ hr.2.remaining
         = some (if refilled < 1 then 0 else ((⌊refilled - 1⌋ : ℤ) : ℚ))
     ∧ (tokenBucketOutcome requests burst hr.2).isBlocked
         = decide (refilled < 1)
     ∧ (tokenBucketOutcome requests burst hr.2).isAllowed
         = !decide (refilled < 1)) := by
  set maxTokens := burst.getD requests with hmax
  set tps := refillRate.getD (requests / window) with htps
  set refilled := min maxTokens (tok + (now - lr) / 1000 * tps) with href
  have hblocked : (tokenBucketOutcome requests burst
      (handleTokenBucket requests window burst refillRate now
        (some (tok, lr))).2).isBlocked
      = decide (refilled < 1) := by
    rw [tokenBucketOutcome_isBlocked]
    by_cases hc : refilled < 1
    · simp only [handleTokenBucket, ← hmax, ← htps, ← href, if_pos hc]
      rw [decide_eq_decide]
      exact iff_of_true (lt_add_one _) hc
    · simp only [handleTokenBucket, ← hmax, ← htps, ← href, if_neg hc]
      rw [decide_eq_decide]
      push_neg at hc
      exact iff_of_false (by linarith) (by linarith)
  have hallowed : (tokenBucketOutcome requests burst
      (handleTokenBucket requests window burst refillRate now
        (some (tok, lr))).2).isAllowed
      = !decide (refilled < 1) := by
    rw [tokenBucketOutcome_isAllowed]
    by_cases hc : refilled < 1
    · simp only [handleTokenBucket, ← hmax, ← htps, ← href, if_pos hc]
      rw [show (decide (refilled < 1)) = true from by simp [hc]]
      simp only [Bool.not_eq_eq_eq_not]
      simp [show maxTokens < maxTokens + 1 from lt_add_one _]
    · simp only [handleTokenBucket, ← hmax, ← htps, ← href, if_neg hc]
      push_neg at hc
      rw [show (decide (refilled < 1)) = false from by simp; linarith]
      simp
      linarith
  by_cases hc : refilled < 1
  · refine ⟨?_, ?_, ?_, ?_, ?_, ?_, hblocked, hallowed⟩ <;>
      simp only [handleTokenBucket, ← hmax, ← htps, ← href, if_pos hc]
  · refine ⟨?_, ?_, ?_, ?_, ?_, ?_, hblocked, hallowed⟩ <;>
      simp only [handleTokenBucket, ← hmax, ← htps, ← href, if_neg hc]

/-- **C2, counterexample**: token bucket with `requests = 2`, `window = 60`,
`burst = 3`, `refillRate = 2/60` tokens/s, requests at 0, 0, 0, 0 ms, then
two more at 30000 ms.  The claim predicts the sixth request (immediately
after the one allowed at 30 s) is blocked; the engine allows it, because
line 99 of `rateLimit.ts` persists the original `lastRefill` so the elapsed
30 s is refilled again. -/
theorem token_bucket_sixth_request_not_blocked :
    (((tokenBucketRun 2 60 (some 3) (some (2 / 60)) none
        [0, 0, 0, 0, 30000, 30000]).2.map
      (fun r => (tokenBucketOutcome 2 (some 3) r).isBlocked))[5]?)
      = some false := by
  norm_num [tokenBucketRun, tokenBucketStep, handleTokenBucket, getTokens,
    middlewareStep, RLOutcome.isBlocked, tokenBucketOutcome]

/-- **C2, amended**: token bucket with burst 3 and refill 2 tokens / 60 s:
the first three immediate requests are allowed and the fourth blocked; after
waiting 30 s one further request is allowed, and the request immediately
following it is *also* allowed (not blocked), because the engine persists the
original `lastRefill` instead of advancing it, so the same elapsed time
refills tokens again on every subsequent request. -/
theorem token_bucket_burst_refill_trace :
    ((tokenBucketRun 2 60 (some 3) (some (2 / 60)) none
        [0, 0, 0, 0, 30000, 30000]).2.map
      (fun r => (tokenBucketOutcome 2 (some 3) r).isBlocked))
      = [false, false, false, true, false, false] := by
  norm_num [tokenBucketRun, tokenBucketStep, handleTokenBucket, getTokens,
    middlewareStep, RLOutcome.isBlocked, tokenBucketOutcome]

/-! ### Sliding-window lemmas and claims -/

theorem slidingWindowOutcome_isBlocked (requests : ℚ) (r : RLResult) :
    (slidingWindowOutcome requests r).isBlocked
      = decide (requests < r.totalHits) := by
  by_cases h : requests < r.totalHits <;>
    simp [slidingWindowOutcome, middlewareStep, RLOutcome.isBlocked, h]

theorem slidingWindowOutcome_isAllowed (requests : ℚ) (r : RLResult) :
    (slidingWindowOutcome requests r).isAllowed
      = !decide (requests < r.totalHits) := by
  by_cases h : requests < r.totalHits <;>
    simp [slidingWindowOutcome, middlewareStep, RLOutcome.isAllowed, h]

/-- A sliding-window engine result with one hit under quota 2 is allowed. -/
theorem sliding_one_allowed :
    (slidingWindowOutcome 2 ⟨1, ((1000 : ℤ) : ℚ), some (max 0 (2 - 1))⟩).isAllowed
      = true := by
  norm_num [slidingWindowOutcome, middlewareStep, RLOutcome.isAllowed]

/-- After a request at time `t` left the window record `{[t], t + 1000}`,
any further requests each spaced more than 1000 ms apart are all allowed
(quota 2, window 1000 ms): each one finds the record expired and resets it. -/
theorem sliding_spaced_aux (times : List ℤ) : ∀ t : ℤ,
    spacedBy 1000 (t :: times) = true →
    ((slidingRun 2 1000 (some ⟨[t], t + 1000⟩) times).2.map
        (fun r => (slidingWindowOutcome 2 r).isAllowed))
      = List.replicate times.length true := by
  induction times with
  | nil => intro t _; simp [slidingRun]
  | cons u us ih =>
    intro t hsp
    have hgap : t + 1000 < u := by
      have hsp' := hsp
      simp [spacedBy] at hsp'
      exact hsp'.1
    have hrest : spacedBy 1000 (u :: us) = true := by
      simp [spacedBy] at hsp ⊢
      rcases us with _ | ⟨v, vs⟩
      · simp [spacedBy]
      · exact hsp.2
    have hexp : t + 1000 ≤ u := by omega
    have hstep : handleSlidingWindow 2 1000 u (some ⟨[t], t + 1000⟩)
        = (⟨[u], u + 1000⟩, ⟨1, ((1000 : ℤ) : ℚ), some (max 0 (2 - 1))⟩) := by
      norm_num [handleSlidingWindow, addToWindow, listMin, hexp]
    simp only [slidingRun, hstep, List.map_cons, List.length_cons]
    rw [ih u hrest, sliding_one_allowed, List.replicate_succ]

/-- **C4**: a sliding-window request is blocked iff the `count` returned by
`addToWindow` exceeds the quota, with reset time
`max(0, oldest + windowMs - now)` when blocked and `windowMs` when allowed;
with quota 2 and a 1000 ms window, three rapid same-key requests give two
allows and one block, and same-key requests each spaced more than 1000 ms
apart are all allowed. -/
theorem sliding_window_decision (requests : ℚ) (windowMs now : ℤ)
    (st : Option WindowState) (t : ℤ) (times : List ℤ)
    (hgap : spacedBy 1000 times = true) :
    ((slidingWindowOutcome requests
        (handleSlidingWindow requests windowMs now st).2).isBlocked
      = decide (requests < ((addToWindow now now windowMs st).2.1 : ℚ)))
    ∧ ((handleSlidingWindow requests windowMs now st).2.ttlMs
      = (if requests < ((addToWindow now now windowMs st).2.1 : ℚ)
         then ((max 0 ((addToWindow now now windowMs st).2.2 + windowMs - now) : ℤ) : ℚ)
         else ((windowMs : ℤ) : ℚ)))
    ∧ ((slidingRun 2 1000 none [t, t, t]).2.map
        (fun r => (slidingWindowOutcome 2 r).isBlocked)) = [false, false, true]
    ∧ ((slidingRun 2 1000 none times).2.map
        (fun r => (slidingWindowOutcome 2 r).isAllowed))
      = List.replicate times.length true := by
  refine ⟨?_, ?_, ?_, ?_⟩
  · by_cases hc : requests < ((addToWindow now now windowMs st).2.1 : ℚ) <;>
      simp [handleSlidingWindow, slidingWindowOutcome_isBlocked, hc]
  · by_cases hc : requests < ((addToWindow now now windowMs st).2.1 : ℚ) <;>
      simp [handleSlidingWindow, hc]
  · have h1 : ¬ (t + 1000 ≤ t) := by omega
    have h2 : t - 1000 < t := by omega
    simp [slidingRun, handleSlidingWindow, addToWindow, listMin,
      slidingWindowOutcome, middlewareStep, RLOutcome.isBlocked, h1, h2]
    norm_num
  · rcases times with _ | ⟨u, us⟩
    · simp [slidingRun]
    · have hstep0 : handleSlidingWindow 2 1000 u none
          = (⟨[u], u + 1000⟩, ⟨1, ((1000 : ℤ) : ℚ), some (max 0 (2 - 1))⟩) := by
        norm_num [handleSlidingWindow, addToWindow, listMin]
      simp only [slidingRun, hstep0, List.map_cons, List.length_cons]
      rw [sliding_spaced_aux us u hgap, sliding_one_allowed,
        List.replicate_succ]

/-- Witness for `sliding_window_decision`: quota 2, window 1000 ms, a lookup
at time 0 on an empty window, the rapid triple at time 0, and spaced
requests at 0 and 2000 ms. -/
theorem sliding_window_decision_witness :
    ((slidingWindowOutcome 2
        (handleSlidingWindow 2 1000 0 none).2).isBlocked
      = decide ((2 : ℚ) < ((addToWindow 0 0 1000 none).2.1 : ℚ)))
    ∧ ((handleSlidingWindow 2 1000 0 none).2.ttlMs
      = (if (2 : ℚ) < ((addToWindow 0 0 1000 none).2.1 : ℚ)
         then ((max 0 ((addToWindow 0 0 1000 none).2.2 + 1000 - 0) : ℤ) : ℚ)
         else (((1000 : ℤ) : ℤ) : ℚ)))
    ∧ ((slidingRun 2 1000 none [0, 0, 0]).2.map
        (fun r => (slidingWindowOutcome 2 r).isBlocked)) = [false, false, true]
    ∧ ((slidingRun 2 1000 none [0, 2000]).2.map
        (fun r => (slidingWindowOutcome 2 r).isAllowed))
      = List.replicate ([0, 2000] : List ℤ).length true :=
  sliding_window_decision 2 1000 0 none 0 [0, 2000] (by decide)

/-- `listMin` computes `List.min?` of the nonempty list. -/
theorem min?_eq_listMin (x : ℤ) (xs : List ℤ) :
    (x :: xs).min? = some (listMin x xs) := by
  induction xs generalizing x with
  | nil => simp [List.min?_cons, listMin]
  | cons y ys ih =>
    rw [List.min?_cons, ih y]
    simp [listMin]

/-- **C5, counterexample**: window 1000 ms, calls at 0, 999, 1000 ms.  The
timestamp 999 is held after the second call and is *not* older than
`now - windowMs = 0` at the third call, yet the third call discards it (the
record's creation-time `expiresAt = 1000` has passed, so the whole window is
reset): the resulting sequence is `[1000]` with count 1, not the
`[999, 1000]` with count 2 the claim predicts. -/
theorem sliding_window_reset_discards_recent :
    ((999 : ℤ) ∈ (addToWindow 999 999 1000
        (some (addToWindow 0 0 1000 none).1)).1.timestamps)
    ∧ ¬ ((999 : ℤ) ≤ 1000 - 1000)
    ∧ (addToWindow 1000 1000 1000
        (some (addToWindow 999 999 1000
          (some (addToWindow 0 0 1000 none).1)).1)).1.timestamps = [1000]
    ∧ (addToWindow 1000 1000 1000
        (some (addToWindow 999 999 1000
          (some (addToWindow 0 0 1000 none).1)).1)).2.1 = 1 := by
  decide

/-- **C5, amended**: each `addToWindow` call appends the new timestamp and
returns the count and the minimum of the resulting sequence; timestamps at
or below `now - windowMs` are removed — but only when the stored record is
still live: when its `expiresAt` (fixed at creation time + windowMs, never
refreshed) has passed, *all* previously held timestamps are discarded first,
including ones newer than `now - windowMs`. -/
theorem addToWindow_prune_append (now timestamp windowMs : ℤ)
    (w : WindowState) :
    (let base := if w.expiresAt ≤ now then ([] : List ℤ) else w.timestamps
     let r := addToWindow now timestamp windowMs (some w)
     r.1.timestamps
         = base.filter (fun ts => decide (now - windowMs < ts)) ++ [timestamp]
     ∧ r.2.1 = r.1.timestamps.length
     ∧ r.1.timestamps.min? = some r.2.2) := by
  by_cases hexp : w.expiresAt ≤ now
  · simp only [addToWindow, if_pos hexp, List.filter_nil, List.nil_append]
    exact ⟨trivial, trivial, min?_eq_listMin timestamp []⟩
  · simp only [addToWindow, if_neg hexp]
    cases hfil : w.timestamps.filter (fun ts => decide (now - windowMs < ts)) with
    | nil => exact ⟨trivial, trivial, min?_eq_listMin timestamp []⟩
    | cons k ks =>
      refine ⟨trivial, trivial, ?_⟩
      simp only [List.cons_append]
      exact min?_eq_listMin k (ks ++ [timestamp])

/-! ### Compression and cache claims -/

/-- **C6**: for every cache-miss response and declared accept-encodings, the
compression choice `pickAlgo` of the code equals the decision procedure as
the specification words it (`pickAlgoSpec`): none when off or below the size
threshold; mode br prefers br, then gzip, then none; mode gzip uses gzip or
none; mode auto prefers gzip when the client accepts gzip but not br, else
br when accepted and the CPU probe is quiet, else gzip, else br, else
none. -/
theorem pickAlgo_matches_spec :
    ∀ (m : CompressionMode) (largeEnough br gz ov : Bool),
      pickAlgo m largeEnough br gz ov = pickAlgoSpec m largeEnough br gz ov := by
  decide

/-- **C7**: for every cacheable GET request, the first request to a fresh key
is a miss (handler invoked, handler's status, and the body is the handler's
output unless a content-encoding was applied); a second identical request
within the TTL is a hit that replays the stored status, body bytes,
content-type and content-encoding verbatim — byte-identical to both the
stored entry and the first response — without invoking the handler again or
changing the store. -/
theorem cache_hit_replays_stored (cfg : CacheConfig)
    (f : Algo → List Nat → List Nat) (br gz ov : Bool) (handler : HandlerOut)
    (now₁ now₂ : ℤ) (hwithin : now₂ < now₁ + cfg.ttlMs) :
    (let r1 := cacheRequest cfg f br gz ov handler now₁ none
     let r2 := cacheRequest cfg f br gz ov handler now₂ r1.2.1
     r1.1.hit = false
     ∧ r1.2.2 = true
     ∧ r1.1.statusCode = handler.statusCode
     ∧ (r1.1.contentEncoding.isSome = true ∨ r1.1.body = handler.body)
     ∧ r2.1.hit = true
     ∧ r2.2.2 = false
     ∧ r2.1.body = r1.1.body
     ∧ r2.1.statusCode = r1.1.statusCode
     ∧ r2.1.contentEncoding = r1.1.contentEncoding
     ∧ r1.2.1.map CacheEntryRec.body = some r2.1.body
     ∧ r1.2.1.map CacheEntryRec.contentType = some r2.1.contentType
     ∧ r2.2.1 = r1.2.1) := by
  have hne : ¬ (now₁ + cfg.ttlMs ≤ now₂) := by omega
  by_cases hug : cfg.useGetWithTTL <;>
    cases hpa : pickAlgo cfg.compression
        (decide (cfg.minSizeBytes ≤ handler.body.length)) br gz ov <;>
    simp [cacheRequest, memCacheGet, memCacheGetWithTTL, entryView, hug, hpa,
      hne]

/-- Witness for `cache_hit_replays_stored`: an uncompressed GET pair at 0 ms
and 500 ms with a 1000 ms TTL. -/
theorem cache_hit_replays_stored_witness :
    (let r1 := cacheRequest ⟨1000, .off, 1024, false⟩ (fun _ l => l)
        false false false ⟨[1, 2], 200, none⟩ 0 none
     let r2 := cacheRequest ⟨1000, .off, 1024, false⟩ (fun _ l => l)
        false false false ⟨[1, 2], 200, none⟩ 500 r1.2.1
     r1.1.hit = false
     ∧ r1.2.2 = true
     ∧ r1.1.statusCode = (⟨[1, 2], 200, none⟩ : HandlerOut).statusCode
     ∧ (r1.1.contentEncoding.isSome = true
        ∨ r1.1.body = (⟨[1, 2], 200, none⟩ : HandlerOut).body)
     ∧ r2.1.hit = true
     ∧ r2.2.2 = false
     ∧ r2.1.body = r1.1.body
     ∧ r2.1.statusCode = r1.1.statusCode
     ∧ r2.1.contentEncoding = r1.1.contentEncoding
     ∧ r1.2.1.map CacheEntryRec.body = some r2.1.body
     ∧ r1.2.1.map CacheEntryRec.contentType = some r2.1.contentType
     ∧ r2.2.1 = r1.2.1) :=
  cache_hit_replays_stored ⟨1000, .off, 1024, false⟩ (fun _ l => l)
    false false false ⟨[1, 2], 200, none⟩ 0 500 (by decide)

/-- **C8, counterexample**: with the in-process store (which supports
`getWithTTL` and returns entries past their TTL), an entry whose TTL elapsed
at 5 ms is *replayed as a hit* by a GET at 10 ms with SWR not configured:
the stored body `[1,2,3]` is served and the handler is not invoked — the
claim predicts a miss with a fresh handler response. -/
theorem cache_stale_hit_with_getWithTTL :
    (cacheRequest ⟨1000, .off, 1024, true⟩ (fun _ l => l) false false false
        ⟨[9], 201, none⟩ 10 (some ⟨[1, 2, 3], some 200, none, none, 5⟩)).1.hit
      = true
    ∧ (cacheRequest ⟨1000, .off, 1024, true⟩ (fun _ l => l) false false false
        ⟨[9], 201, none⟩ 10 (some ⟨[1, 2, 3], some 200, none, none, 5⟩)).2.2
      = false
    ∧ (cacheRequest ⟨1000, .off, 1024, true⟩ (fun _ l => l) false false false
        ⟨[9], 201, none⟩ 10 (some ⟨[1, 2, 3], some 200, none, none, 5⟩)).1.body
      = [1, 2, 3]
    ∧ ((5 : ℤ) ≤ 10) := by
  decide

/-- **C8, amended**: for a cache key whose entry's TTL has elapsed and with
SWR not enabled, the behavior depends on the store's capability: when the
store lacks `getWithTTL` (lookup via `get`, which treats expired entries as
absent and deletes them), the next GET is a miss and the downstream handler
is invoked; when the store supports `getWithTTL` and still holds the entry
(as the in-process store does), the expired entry is replayed as a hit with
its stored body and the handler is not invoked. -/
theorem cache_expiry_depends_on_capability (cfg : CacheConfig)
    (f : Algo → List Nat → List Nat) (br gz ov : Bool) (handler : HandlerOut)
    (now : ℤ) (e : CacheEntryRec) (hexp : e.expiresAt ≤ now) :
    (let r := cacheRequest cfg f br gz ov handler now (some e)
     (cfg.useGetWithTTL = false →
        r.1.hit = false ∧ r.2.2 = true ∧ r.1.statusCode = handler.statusCode)
     ∧ (cfg.useGetWithTTL = true →
        r.1.hit = true ∧ r.2.2 = false ∧ r.1.body = e.body)) := by
  by_cases hug : cfg.useGetWithTTL <;>
    cases hpa : pickAlgo cfg.compression
        (decide (cfg.minSizeBytes ≤ handler.body.length)) br gz ov <;>
    simp [cacheRequest, memCacheGet, memCacheGetWithTTL, entryView, hug, hpa,
      hexp]

/-- Witness for `cache_expiry_depends_on_capability`: a store without
`getWithTTL` and an entry expired at 5 ms read at 10 ms. -/
theorem cache_expiry_depends_on_capability_witness :
    (let r := cacheRequest ⟨1000, .off, 1024, false⟩ (fun _ l => l)
        false false false ⟨[2], 201, none⟩ 10
        (some ⟨[1], some 200, none, none, 5⟩)
     ((⟨1000, .off, 1024, false⟩ : CacheConfig).useGetWithTTL = false →
        r.1.hit = false ∧ r.2.2 = true
        ∧ r.1.statusCode = (⟨[2], 201, none⟩ : HandlerOut).statusCode)
     ∧ ((⟨1000, .off, 1024, false⟩ : CacheConfig).useGetWithTTL = true →
        r.1.hit = true ∧ r.2.2 = false
        ∧ r.1.body = (⟨[1], some 200, none, none, 5⟩ : CacheEntryRec).body)) :=
  cache_expiry_depends_on_capability ⟨1000, .off, 1024, false⟩ (fun _ l => l)
    false false false ⟨[2], 201, none⟩ 10 ⟨[1], some 200, none, none, 5⟩
    (by decide)

/-! ### Error-path and invariant claims -/

/-- **C9**: for every strategy and configuration, a store error thrown
during the engine call makes the middleware outcome `errored`: the `onError`
hook receives the error and it is forwarded to `next(error)` unresolved —
the request is neither allowed (`next()` is not called) nor blocked (no 429
is sent), and the error value is never converted into an allow or block
decision. -/
theorem store_error_neither_allows_nor_blocks {ε : Type} (requests : ℚ)
    (strategy : Strategy) (burst : Option ℚ) (e : ε) :
    middlewareStep requests strategy burst (Except.error e)
      = RLOutcome.errored e
    ∧ (middlewareStep requests strategy burst (Except.error e)).isAllowed
      = false
    ∧ (middlewareStep requests strategy burst (Except.error e)).isBlocked
      = false :=
  ⟨rfl, rfl, rfl⟩

/-- On any non-error engine result, the middleware's reported and
hook-visible remaining values are nonnegative as soon as the engine's
`remaining` (or its `max(0, requests - totalHits)` default) is. -/
theorem middlewareStep_ok_remaining_nonneg {ε : Type} (requests : ℚ)
    (strategy : Strategy) (burst : Option ℚ) (res : RLResult)
    (h : 0 ≤ res.remaining.getD (max 0 (requests - res.totalHits))) :
    0 ≤ (middlewareStep requests strategy burst
        (Except.ok res) : RLOutcome ε).reportedRemaining
    ∧ 0 ≤ (middlewareStep requests strategy burst
        (Except.ok res) : RLOutcome ε).hookRemaining := by
  simp only [middlewareStep]
  split_ifs with hc <;>
    simp [RLOutcome.reportedRemaining, RLOutcome.hookRemaining, h]

/-- **C10**: on every request that completes without a store error — fixed
window, token bucket, sliding window, and the fixed-window fallback under
any strategy — the reported remaining quota (the `X-RateLimit-Remaining`
value and the value passed to `onAllowed`) is nonnegative: it is clamped via
`max(0, requests - totalHits)` on counter paths, is 0 on a token-bucket
block, and is `⌊tokens⌋ ≥ 0` on a token-bucket allow. -/
theorem remaining_quota_nonneg (requests window now : ℚ)
    (burst refillRate : Option ℚ) (existing : Option (ℚ × ℚ))
    (windowMs nowMs : ℤ) (wst : Option WindowState) (r : IncrResult)
    (strategy : Strategy) :
    (0 ≤ (fixedWindowOutcome requests r).reportedRemaining
      ∧ 0 ≤ (fixedWindowOutcome requests r).hookRemaining)
    ∧ (0 ≤ (tokenBucketOutcome requests burst
          (handleTokenBucket requests window burst refillRate now
            existing).2).reportedRemaining
      ∧ 0 ≤ (tokenBucketOutcome requests burst
          (handleTokenBucket requests window burst refillRate now
            existing).2).hookRemaining)
    ∧ (0 ≤ (slidingWindowOutcome requests
          (handleSlidingWindow requests windowMs nowMs wst).2).reportedRemaining
      ∧ 0 ≤ (slidingWindowOutcome requests
          (handleSlidingWindow requests windowMs nowMs wst).2).hookRemaining)
    ∧ (0 ≤ (middlewareStep requests strategy burst
          (Except.ok (fixedFallbackResult requests r))
            : RLOutcome Unit).reportedRemaining
      ∧ 0 ≤ (middlewareStep requests strategy burst
          (Except.ok (fixedFallbackResult requests r))
            : RLOutcome Unit).hookRemaining) := by
  have hfix : 0 ≤ (fixedWindowResult r).remaining.getD
      (max 0 (requests - (fixedWindowResult r).totalHits)) := by
    simp [fixedWindowResult]
  have htok : 0 ≤ ((handleTokenBucket requests window burst refillRate now
      existing).2.remaining).getD
      (max 0 (requests - (handleTokenBucket requests window burst refillRate
        now existing).2.totalHits)) := by
    rcases existing with _ | ⟨a, b⟩ <;>
      simp only [handleTokenBucket] <;> split_ifs with hc <;>
      simp only [Option.getD_some] <;>
      first
        | exact le_refl 0
        | exact Int.cast_nonneg.mpr (Int.floor_nonneg.mpr
            (by push_neg at hc; linarith))
  have hsli : 0 ≤ ((handleSlidingWindow requests windowMs nowMs
      wst).2.remaining).getD
      (max 0 (requests - (handleSlidingWindow requests windowMs nowMs
        wst).2.totalHits)) := by
    simp only [handleSlidingWindow]
    split_ifs with hc <;> simp
  have hfb : 0 ≤ (fixedFallbackResult requests r).remaining.getD
      (max 0 (requests - (fixedFallbackResult requests r).totalHits)) := by
    simp [fixedFallbackResult]
  simp only [fixedWindowOutcome, tokenBucketOutcome, slidingWindowOutcome]
  exact ⟨middlewareStep_ok_remaining_nonneg requests .fixed_window none _ hfix,
    middlewareStep_ok_remaining_nonneg requests .token_bucket burst _ htok,
    middlewareStep_ok_remaining_nonneg requests .sliding_window none _ hsli,
    middlewareStep_ok_remaining_nonneg requests strategy burst _ hfb⟩

end Cachinator
